import Mathlib

/-!
Verification of the token-lens browser-cookie extraction engine.

This file shallowly embeds the cookie-extraction core of the repository:

* `src/utils/cookie-extractor/crypto.ts` — key derivation (`deriveKey`,
  `getLinuxKeys`) and cookie-value decryption (`decryptChromiumCookie`,
  `decryptAesCbc`, `decryptAesGcm`);
* `src/utils/cookie-extractor/sqlite.ts` — row processing
  (`processChromiumRows`, `processFirefoxRows`) and the read wrappers;
* the cookies module (`getCookies`, `hostMatches`, `toCookieHeader`).

Machine bytes are modelled as `Nat` with explicit `% 256` where overflow
matters; JavaScript strings are `String`; fallible library calls return
`Option`; external effects (URL parsing, filesystem, SQLite, key stores,
the clock) are passed in explicitly as data (`Env`).

The cryptographic library primitives the source calls
(`crypto.createDecipheriv` for aes-128-cbc / aes-256-gcm,
`crypto.pbkdf2Sync` with HMAC-SHA1, `Buffer.toString` UTF-8 decoding)
are implemented executably below, following FIPS-197 / SP 800-38D /
RFC 2104 / RFC 8018 / WHATWG UTF-8 decoding.
-/

set_option linter.unusedVariables false

/-! ## GF(2^8) arithmetic and the AES S-boxes (FIPS-197) -/

/-- Multiplication by x in GF(2^8) modulo the AES polynomial 0x11b. -/
def xtime (b : Nat) : Nat := ((b <<< 1) ^^^ (if 128 ≤ b then 0x1b else 0)) % 256

def gmulGo : Nat → Nat → Nat → Nat → Nat
  | _, _, acc, 0 => acc
  | a, b, acc, n+1 => gmulGo (xtime a) (b >>> 1) (if b &&& 1 == 1 then acc ^^^ a else acc) n

/-- GF(2^8) product of two bytes. -/
def gmul (a b : Nat) : Nat := gmulGo a b 0 8

/-- Multiplicative inverse in GF(2^8) (0 maps to 0), found by search. -/
def ginv (x : Nat) : Nat :=
  if x = 0 then 0 else (((List.range 256).find? (fun y => gmul x y == 1)).getD 0)

def rotl8 (b n : Nat) : Nat := ((b <<< n) ||| (b >>> (8 - n))) % 256

/-- The AES S-box computed from its definition: affine map of the GF(2^8) inverse. -/
def sboxOf (x : Nat) : Nat :=
  let b := ginv x
  b ^^^ rotl8 b 1 ^^^ rotl8 b 2 ^^^ rotl8 b 3 ^^^ rotl8 b 4 ^^^ 0x63

/-- The AES S-box as a literal table (proved equal to `sboxOf` pointwise below). -/
def sboxTable : List Nat := [99, 124, 119, 123, 242, 107, 111, 197, 48, 1, 103, 43, 254, 215, 171, 118, 202, 130, 201, 125, 250, 89, 71, 240, 173, 212, 162, 175, 156, 164, 114, 192, 183, 253, 147, 38, 54, 63, 247, 204, 52, 165, 229, 241, 113, 216, 49, 21, 4, 199, 35, 195, 24, 150, 5, 154, 7, 18, 128, 226, 235, 39, 178, 117, 9, 131, 44, 26, 27, 110, 90, 160, 82, 59, 214, 179, 41, 227, 47, 132, 83, 209, 0, 237, 32, 252, 177, 91, 106, 203, 190, 57, 74, 76, 88, 207, 208, 239, 170, 251, 67, 77, 51, 133, 69, 249, 2, 127, 80, 60, 159, 168, 81, 163, 64, 143, 146, 157, 56, 245, 188, 182, 218, 33, 16, 255, 243, 210, 205, 12, 19, 236, 95, 151, 68, 23, 196, 167, 126, 61, 100, 93, 25, 115, 96, 129, 79, 220, 34, 42, 144, 136, 70, 238, 184, 20, 222, 94, 11, 219, 224, 50, 58, 10, 73, 6, 36, 92, 194, 211, 172, 98, 145, 149, 228, 121, 231, 200, 55, 109, 141, 213, 78, 169, 108, 86, 244, 234, 101, 122, 174, 8, 186, 120, 37, 46, 28, 166, 180, 198, 232, 221, 116, 31, 75, 189, 139, 138, 112, 62, 181, 102, 72, 3, 246, 14, 97, 53, 87, 185, 134, 193, 29, 158, 225, 248, 152, 17, 105, 217, 142, 148, 155, 30, 135, 233, 206, 85, 40, 223, 140, 161, 137, 13, 191, 230, 66, 104, 65, 153, 45, 15, 176, 84, 187, 22]

/-- The inverse AES S-box as a literal table (inversion proved pointwise below). -/
def invSboxTable : List Nat := [82, 9, 106, 213, 48, 54, 165, 56, 191, 64, 163, 158, 129, 243, 215, 251, 124, 227, 57, 130, 155, 47, 255, 135, 52, 142, 67, 68, 196, 222, 233, 203, 84, 123, 148, 50, 166, 194, 35, 61, 238, 76, 149, 11, 66, 250, 195, 78, 8, 46, 161, 102, 40, 217, 36, 178, 118, 91, 162, 73, 109, 139, 209, 37, 114, 248, 246, 100, 134, 104, 152, 22, 212, 164, 92, 204, 93, 101, 182, 146, 108, 112, 72, 80, 253, 237, 185, 218, 94, 21, 70, 87, 167, 141, 157, 132, 144, 216, 171, 0, 140, 188, 211, 10, 247, 228, 88, 5, 184, 179, 69, 6, 208, 44, 30, 143, 202, 63, 15, 2, 193, 175, 189, 3, 1, 19, 138, 107, 58, 145, 17, 65, 79, 103, 220, 234, 151, 242, 207, 206, 240, 180, 230, 115, 150, 172, 116, 34, 231, 173, 53, 133, 226, 249, 55, 232, 28, 117, 223, 110, 71, 241, 26, 113, 29, 41, 197, 137, 111, 183, 98, 14, 170, 24, 190, 27, 252, 86, 62, 75, 198, 210, 121, 32, 154, 219, 192, 254, 120, 205, 90, 244, 31, 221, 168, 51, 136, 7, 199, 49, 177, 18, 16, 89, 39, 128, 236, 95, 96, 81, 127, 169, 25, 181, 74, 13, 45, 229, 122, 159, 147, 201, 156, 239, 160, 224, 59, 77, 174, 42, 245, 176, 200, 235, 187, 60, 131, 83, 153, 97, 23, 43, 4, 126, 186, 119, 214, 38, 225, 105, 20, 99, 85, 33, 12, 125]

def sbox (x : Nat) : Nat := sboxTable.getD x 0
def invSbox (y : Nat) : Nat := invSboxTable.getD y 0

/-! ## AES block cipher (FIPS-197) -/

def chunksGo (n : Nat) : List Nat → Nat → List (List Nat)
  | [], _ => []
  | _, 0 => []
  | l, fuel+1 => l.take n :: chunksGo n (l.drop n) fuel

/-- Split a byte list into consecutive chunks of `n` bytes. -/
def chunksOf (n : Nat) (l : List Nat) : List (List Nat) := chunksGo n l l.length

def subWord (w : List Nat) : List Nat := w.map sbox
def rotWord (w : List Nat) : List Nat := w.drop 1 ++ w.take 1

/-- Round-constant generator: rconPow n = x^n in GF(2^8). -/
def rconPow : Nat → Nat
  | 0 => 1
  | n+1 => xtime (rconPow n)

def keyExpandGo (nk : Nat) : List (List Nat) → Nat → List (List Nat)
  | ws, 0 => ws
  | ws, n+1 =>
    let i := ws.length
    let temp := ws.getD (i - 1) []
    let temp :=
      if i % nk == 0 then List.zipWith Nat.xor (subWord (rotWord temp)) [rconPow (i / nk - 1), 0, 0, 0]
      else if 6 < nk ∧ i % nk == 4 then subWord temp
      else temp
    keyExpandGo nk (ws ++ [List.zipWith Nat.xor (ws.getD (i - nk) []) temp]) n

/-- AES key expansion: the `nr + 1` round keys of 16 bytes each. -/
def roundKeys (key : List Nat) (nk nr : Nat) : List (List Nat) :=
  let ws := keyExpandGo nk (chunksOf 4 key) (4 * (nr + 1) - nk)
  (List.range (nr + 1)).map (fun r => ((ws.drop (4 * r)).take 4).flatten)

def addRoundKey (s k : List Nat) : List Nat := List.zipWith Nat.xor s k
def subBytes (s : List Nat) : List Nat := s.map sbox
def invSubBytes (s : List Nat) : List Nat := s.map invSbox

/-- The state is kept flat in input order (byte i sits at row i % 4, column i / 4). -/
def shiftRows (s : List Nat) : List Nat :=
  (List.range 16).map (fun i => s.getD ((i % 4) + 4 * (((i / 4) + (i % 4)) % 4)) 0)

def invShiftRows (s : List Nat) : List Nat :=
  (List.range 16).map (fun i => s.getD ((i % 4) + 4 * (((i / 4) + 4 - (i % 4)) % 4)) 0)

def mixCol : List Nat → List Nat
  | [a, b, c, d] =>
      [gmul 2 a ^^^ gmul 3 b ^^^ c ^^^ d,
       a ^^^ gmul 2 b ^^^ gmul 3 c ^^^ d,
       a ^^^ b ^^^ gmul 2 c ^^^ gmul 3 d,
       gmul 3 a ^^^ b ^^^ c ^^^ gmul 2 d]
  | l => l

def invMixCol : List Nat → List Nat
  | [a, b, c, d] =>
      [gmul 14 a ^^^ gmul 11 b ^^^ gmul 13 c ^^^ gmul 9 d,
       gmul 9 a ^^^ gmul 14 b ^^^ gmul 11 c ^^^ gmul 13 d,
       gmul 13 a ^^^ gmul 9 b ^^^ gmul 14 c ^^^ gmul 11 d,
       gmul 11 a ^^^ gmul 13 b ^^^ gmul 9 c ^^^ gmul 14 d]
  | l => l

def mixColumns (s : List Nat) : List Nat := (chunksOf 4 s).flatMap mixCol
def invMixColumns (s : List Nat) : List Nat := (chunksOf 4 s).flatMap invMixCol

def cipherRounds (rks : List (List Nat)) (nr : Nat) (block : List Nat) : List Nat :=
  let s0 := addRoundKey block (rks.getD 0 [])
  let s := (List.range (nr - 1)).foldl
    (fun s r => addRoundKey (mixColumns (shiftRows (subBytes s))) (rks.getD (r + 1) [])) s0
  addRoundKey (shiftRows (subBytes s)) (rks.getD nr [])

def invCipherRounds (rks : List (List Nat)) (nr : Nat) (block : List Nat) : List Nat :=
  let s0 := addRoundKey block (rks.getD nr [])
  let s := (List.range (nr - 1)).foldl
    (fun s j => invMixColumns (addRoundKey (invSubBytes (invShiftRows s)) (rks.getD (nr - 1 - j) []))) s0
  addRoundKey (invSubBytes (invShiftRows s)) (rks.getD 0 [])

def aes128EncryptBlock (key block : List Nat) : List Nat := cipherRounds (roundKeys key 4 10) 10 block
def aes128DecryptBlock (key block : List Nat) : List Nat := invCipherRounds (roundKeys key 4 10) 10 block
def aes256EncryptBlock (key block : List Nat) : List Nat := cipherRounds (roundKeys key 8 14) 14 block

/-! ## CBC mode with PKCS#7 padding (the aes-128-cbc decipher of the Node crypto library) -/

def cbcDecryptRaw (key iv ct : List Nat) : List Nat :=
  ((chunksOf 16 ct).foldl
    (fun (acc : List Nat × List Nat) cblk =>
      (acc.1 ++ List.zipWith Nat.xor (aes128DecryptBlock key cblk) acc.2, cblk))
    ([], iv)).1

/-- PKCS#7 unpadding as validated by `decipher.final()` with auto padding:
the last byte b must lie in 1..16 and the last b bytes must all equal b. -/
def unpadPkcs7 (bs : List Nat) : Option (List Nat) :=
  match bs.getLast? with
  | none => none
  | some b =>
    if 1 ≤ b ∧ b ≤ 16 ∧ (bs.drop (bs.length - b)).all (· == b) then
      some (bs.take (bs.length - b))
    else none

/-- Model of createDecipheriv aes-128-cbc, update, final with auto padding.
`none` models the synchronous throw (wrong key size, empty or misaligned
ciphertext, bad padding) that the source catches. -/
def aes128CbcDecrypt (key iv ct : List Nat) : Option (List Nat) :=
  if key.length ≠ 16 ∨ iv.length ≠ 16 ∨ ct.length = 0 ∨ ct.length % 16 ≠ 0 then none
  else unpadPkcs7 (cbcDecryptRaw key iv ct)

def cbcEncryptRaw (key iv pt : List Nat) : List Nat :=
  ((chunksOf 16 pt).foldl
    (fun (acc : List Nat × List Nat) pblk =>
      let c := aes128EncryptBlock key (List.zipWith Nat.xor pblk acc.2)
      (acc.1 ++ c, c))
    ([], iv)).1

def padPkcs7 (bs : List Nat) : List Nat :=
  let b := 16 - bs.length % 16
  bs ++ List.replicate b b

/-- AES-128-CBC encryption with PKCS#7 padding (used to build test blobs). -/
def aes128CbcEncrypt (key iv pt : List Nat) : List Nat := cbcEncryptRaw key iv (padPkcs7 pt)

/-! ## GCM mode (the aes-256-gcm decipher of the Node crypto library, SP 800-38D) -/

def bytesToNatBE (bs : List Nat) : Nat := bs.foldl (fun acc b => acc * 256 + b) 0

def natToBytesBE (len n : Nat) : List Nat :=
  (List.range len).map (fun i => (n >>> (8 * (len - 1 - i))) % 256)

/-- GF(2^128) product in the bit-reflected GCM representation; blocks are
big-endian 128-bit naturals. -/
def gf128mul (x y : Nat) : Nat :=
  ((List.range 128).foldl (fun (zv : Nat × Nat) i =>
      let z := if (x >>> (127 - i)) &&& 1 == 1 then zv.1 ^^^ zv.2 else zv.1
      let v := if zv.2 &&& 1 == 1 then (zv.2 >>> 1) ^^^ (0xe1 <<< 120) else zv.2 >>> 1
      (z, v)) (0, y)).1

def padTo16 (bs : List Nat) : List Nat := bs ++ List.replicate ((16 - bs.length % 16) % 16) 0

def ghash (h : Nat) (data : List Nat) : Nat :=
  (chunksOf 16 data).foldl (fun y c => gf128mul (y ^^^ bytesToNatBE c) h) 0

def inc32 (block : List Nat) : List Nat :=
  block.take 12 ++ natToBytesBE 4 ((bytesToNatBE (block.drop 12) + 1) % 4294967296)

def gcmKeystream (key j0 : List Nat) (n : Nat) : List Nat :=
  (((List.range n).foldl (fun (acc : List (List Nat) × List Nat) _ =>
      let nxt := inc32 acc.2
      (acc.1 ++ [aes256EncryptBlock key nxt], nxt)) ([], j0)).1).flatten

/-- Model of createDecipheriv aes-256-gcm with setAuthTag, update, final:
authenticated decryption; `none` models the synchronous throw on a bad
key/nonce or on tag mismatch. -/
def aes256GcmDecrypt (key nonce body tag : List Nat) : Option (List Nat) :=
  if key.length ≠ 32 ∨ nonce.length = 0 then none
  else
    let h := bytesToNatBE (aes256EncryptBlock key (List.replicate 16 0))
    let j0 := if nonce.length == 12 then nonce ++ [0, 0, 0, 1]
              else natToBytesBE 16 (ghash h (padTo16 nonce ++ natToBytesBE 8 0 ++ natToBytesBE 8 (8 * nonce.length)))
    let ks := gcmKeystream key j0 ((body.length + 15) / 16)
    let plaintext := List.zipWith Nat.xor body ks
    let s := ghash h (padTo16 body ++ natToBytesBE 8 0 ++ natToBytesBE 8 (8 * body.length))
    let t := List.zipWith Nat.xor (aes256EncryptBlock key j0) (natToBytesBE 16 s)
    if t == tag then some plaintext else none

/-! ## SHA-1, HMAC-SHA1, PBKDF2 (the pbkdf2Sync library call of the source) -/

def toBE32 (n : Nat) : List Nat := [(n >>> 24) % 256, (n >>> 16) % 256, (n >>> 8) % 256, n % 256]

def toBE64 (n : Nat) : List Nat :=
  [(n >>> 56) % 256, (n >>> 48) % 256, (n >>> 40) % 256, (n >>> 32) % 256,
   (n >>> 24) % 256, (n >>> 16) % 256, (n >>> 8) % 256, n % 256]

def fromBE32 : List Nat → Nat
  | [a, b, c, d] => (a <<< 24) ||| (b <<< 16) ||| (c <<< 8) ||| d
  | _ => 0

def rotl32 (x n : Nat) : Nat := ((x <<< n) ||| (x >>> (32 - n))) % 4294967296

def sha1Pad (msg : List Nat) : List Nat :=
  msg ++ [0x80] ++ List.replicate ((56 + 64 - (msg.length + 1) % 64) % 64) 0 ++ toBE64 (8 * msg.length)

def sha1Compress (h : List Nat) (chunk : List Nat) : List Nat :=
  let w16 := (chunksOf 4 chunk).map fromBE32
  let w := (List.range 64).foldl
    (fun w _ => w ++ [rotl32 (w.getD (w.length - 3) 0 ^^^ w.getD (w.length - 8) 0 ^^^
                              w.getD (w.length - 14) 0 ^^^ w.getD (w.length - 16) 0) 1]) w16
  let step := fun (st : Nat × Nat × Nat × Nat × Nat) (i : Nat) =>
    let (a, b, c, d, e) := st
    let f := if i < 20 then (b &&& c) ||| ((b ^^^ 0xffffffff) &&& d)
             else if i < 40 then b ^^^ c ^^^ d
             else if i < 60 then (b &&& c) ||| (b &&& d) ||| (c &&& d)
             else b ^^^ c ^^^ d
    let k := if i < 20 then 0x5a827999 else if i < 40 then 0x6ed9eba1
             else if i < 60 then 0x8f1bbcdc else 0xca62c1d6
    let temp := (rotl32 a 5 + f + e + k + w.getD i 0) % 4294967296
    (temp, a, rotl32 b 30, c, d)
  let init := (h.getD 0 0, h.getD 1 0, h.getD 2 0, h.getD 3 0, h.getD 4 0)
  let (a, b, c, d, e) := (List.range 80).foldl step init
  [(h.getD 0 0 + a) % 4294967296, (h.getD 1 0 + b) % 4294967296, (h.getD 2 0 + c) % 4294967296,
   (h.getD 3 0 + d) % 4294967296, (h.getD 4 0 + e) % 4294967296]

def sha1 (msg : List Nat) : List Nat :=
  ((chunksOf 64 (sha1Pad msg)).foldl sha1Compress
    [0x67452301, 0xefcdab89, 0x98badcfe, 0x10325476, 0xc3d2e1f0]).flatMap toBE32

def hmacSha1 (key msg : List Nat) : List Nat :=
  let k1 := if 64 < key.length then sha1 key else key
  let k0 := k1 ++ List.replicate (64 - k1.length) 0
  sha1 ((k0.map (· ^^^ 0x5c)) ++ sha1 ((k0.map (· ^^^ 0x36)) ++ msg))

def pbkdf2U (password : List Nat) (u : List Nat) (acc : List Nat) : Nat → List Nat
  | 0 => acc
  | n+1 =>
    let u2 := hmacSha1 password u
    pbkdf2U password u2 (List.zipWith Nat.xor acc u2) n

def pbkdf2Block (password salt : List Nat) (iterations i : Nat) : List Nat :=
  let u1 := hmacSha1 password (salt ++ toBE32 i)
  pbkdf2U password u1 u1 (iterations - 1)

/-- PBKDF2 with HMAC-SHA1 (RFC 8018), the `crypto.pbkdf2Sync(..., 'sha1')` call. -/
def pbkdf2HmacSha1 (password salt : List Nat) (iterations dkLen : Nat) : List Nat :=
  (((List.range ((dkLen + 19) / 20)).map
    (fun i => pbkdf2Block password salt iterations (i + 1))).flatten).take dkLen

/-! ## UTF-8 encoding and decoding (Buffer string conversion) -/

def utf8EncodeChar (c : Char) : List Nat :=
  let n := c.toNat
  if n < 128 then [n]
  else if n < 2048 then [192 + n / 64, 128 + n % 64]
  else if n < 65536 then [224 + n / 4096, 128 + (n / 64) % 64, 128 + n % 64]
  else [240 + n / 262144, 128 + (n / 4096) % 64, 128 + (n / 64) % 64, 128 + n % 64]

/-- UTF-8 encoding of a string, as `Buffer.from(s, 'utf8')`. -/
def utf8Encode (s : String) : List Nat := s.data.flatMap utf8EncodeChar

def replChar : Char := Char.ofNat 0xFFFD

def isCont (b : Nat) : Bool := 128 ≤ b ∧ b ≤ 191

/-- WHATWG UTF-8 decoding with replacement characters for invalid input,
as performed by `buffer.toString('utf8')` in Node (maximal-subpart policy:
on an invalid byte, one replacement character is emitted and decoding
resumes at the offending byte). -/
def utf8Go : List Nat → List Char
  | [] => []
  | b :: rest =>
    if b < 128 then Char.ofNat b :: utf8Go rest
    else if 194 ≤ b ∧ b ≤ 223 then
      match rest with
      | [] => [replChar]
      | b2 :: rest2 =>
        if isCont b2 then Char.ofNat ((b - 192) * 64 + (b2 - 128)) :: utf8Go rest2
        else replChar :: utf8Go (b2 :: rest2)
    else if 224 ≤ b ∧ b ≤ 239 then
      match rest with
      | [] => [replChar]
      | b2 :: rest2 =>
        let lo := if b == 224 then 160 else 128
        let hi := if b == 237 then 159 else 191
        if lo ≤ b2 ∧ b2 ≤ hi then
          match rest2 with
          | [] => [replChar]
          | b3 :: rest3 =>
            if isCont b3 then
              Char.ofNat ((b - 224) * 4096 + (b2 - 128) * 64 + (b3 - 128)) :: utf8Go rest3
            else replChar :: utf8Go (b3 :: rest3)
        else replChar :: utf8Go (b2 :: rest2)
    else if 240 ≤ b ∧ b ≤ 244 then
      match rest with
      | [] => [replChar]
      | b2 :: rest2 =>
        let lo := if b == 240 then 144 else 128
        let hi := if b == 244 then 143 else 191
        if lo ≤ b2 ∧ b2 ≤ hi then
          match rest2 with
          | [] => [replChar]
          | b3 :: rest3 =>
            if isCont b3 then
              match rest3 with
              | [] => [replChar]
              | b4 :: rest4 =>
                if isCont b4 then
                  Char.ofNat ((b - 240) * 262144 + (b2 - 128) * 4096 + (b3 - 128) * 64 + (b4 - 128)) :: utf8Go rest4
                else replChar :: utf8Go (b4 :: rest4)
            else replChar :: utf8Go (b3 :: rest3)
        else replChar :: utf8Go (b2 :: rest2)
    else replChar :: utf8Go rest

/-- Source: `buffer.toString('utf8')`. -/
def utf8DecodeReplace (bs : List Nat) : String := ⟨utf8Go bs⟩

/-! ## JavaScript string helpers -/

/-- JS `String.prototype.startsWith`. -/
def jsStartsWith (s pre : String) : Bool := pre.data.isPrefixOf s.data

/-- JS `String.prototype.endsWith`. -/
def jsEndsWith (s suf : String) : Bool := suf.data.isSuffixOf s.data

/-- JS `s.slice(1)`. -/
def jsSlice1 (s : String) : String := ⟨s.data.drop 1⟩

/-- JS `String.prototype.toLowerCase` (ASCII range, which is all this code
base feeds it): uppercase ASCII letters shift down by 32. -/
def jsToLower (s : String) : String :=
  ⟨s.data.map (fun c => if 65 ≤ c.toNat ∧ c.toNat ≤ 90 then Char.ofNat (c.toNat + 32) else c)⟩

def isJsWhitespace (c : Char) : Bool :=
  let n := c.toNat
  n == 9 ∨ n == 10 ∨ n == 11 ∨ n == 12 ∨ n == 13 ∨ n == 32 ∨ n == 160 ∨ n == 0xFEFF ∨
  n == 0x2028 ∨ n == 0x2029

/-- JS `String.prototype.trim`. -/
def jsTrim (s : String) : String :=
  ⟨((s.data.dropWhile isJsWhitespace).reverse.dropWhile isJsWhitespace).reverse⟩

/-! ## crypto.ts: constants and key derivation -/

/-- Source: `const SALT = Buffer.from('saltysalt', 'utf8')`. -/
def SALT : List Nat := utf8Encode "saltysalt"

/-- Source: `const IV_CBC = Buffer.alloc(16, 0x20)` — sixteen space bytes. -/
def IV_CBC : List Nat := List.replicate 16 0x20

inductive BrowserName where
  | chrome | edge | firefox | safari | arc
deriving DecidableEq, BEq

def browserNameStr : BrowserName → String
  | .chrome => "chrome"
  | .edge => "edge"
  | .firefox => "firefox"
  | .safari => "safari"
  | .arc => "arc"

/-- Source: `BrowserConfig` of paths.ts. -/
structure BrowserConfig where
  name : BrowserName
  cookiesPath : String
  userDataDir : Option String := none
  osCryptName : Option String := none
  osCryptAccount : Option String := none
deriving DecidableEq

/-- Source: `DecryptKeyResult` of crypto.ts: tagged ok/err union. -/
inductive DecryptKeyResult where
  | ok (keys : List (List Nat)) (warnings : List String)
  | err (error : String) (warnings : List String)
deriving DecidableEq

/-- Source: `deriveKey(password, iterations)`:
`crypto.pbkdf2Sync(password, SALT, iterations, 16, 'sha1')`. -/
def deriveKey (password : String) (iterations : Nat) : List Nat :=
  pbkdf2HmacSha1 (utf8Encode password) SALT iterations 16

/-- Source: `getLinuxKeys(config, warnings)`.  The one external effect, the
`secret-tool lookup` subprocess, is passed in as `keyringOut`: `none`
models the call throwing (caught and ignored by the source), `some out`
models captured stdout. -/
def getLinuxKeys (config : BrowserConfig) (warnings : List String)
    (keyringOut : Option String) : DecryptKeyResult :=
  let keyringKeys :=
    match keyringOut with
    | some out =>
      let password := jsTrim out
      if password ≠ "" then [deriveKey password 1] else []
    | none => []
  let keys := keyringKeys ++ [deriveKey "peanuts" 1, deriveKey "" 1]
  if keys.length = 0 then .err "Linux keyring failed" warnings
  else .ok keys warnings

/-- The keyring-derived portion of getLinuxKeys' candidate list, in closed form. -/
def keyringKeys (keyringOut : Option String) : List (List Nat) :=
  match keyringOut with
  | some out => if jsTrim out ≠ "" then [deriveKey (jsTrim out) 1] else []
  | none => []

/-! ## crypto.ts: cookie decryption -/

/-- The control-character test of decryptAesCbc:
`str.includes('\0') || /[\x00-\x08\x0b\x0c\x0e-\x1f]/.test(str)`. -/
def hasBadControl (s : String) : Bool :=
  s.data.any (fun c =>
    let n := c.toNat
    n ≤ 8 ∨ n == 11 ∨ n == 12 ∨ (14 ≤ n ∧ n ≤ 31))

/-- The per-key tail of the decryptAesCbc loop body after a successful
decipher: decode, optionally strip a 32-byte prefix, return only nonempty. -/
def cbcPostProcess (dec : List Nat) : Option String :=
  let str := utf8DecodeReplace dec
  let str := if hasBadControl str ∧ 32 < dec.length then utf8DecodeReplace (dec.drop 32) else str
  if str ≠ "" then some str else none

/-- Source: `decryptAesCbc(ciphertext, keys)` of crypto.ts: try each key with
aes-128-cbc and IV_CBC; a throw or an empty result moves to the next key. -/
def decryptAesCbc (ciphertext : List Nat) (keys : List (List Nat)) : Option String :=
  match keys with
  | [] => none
  | key :: rest =>
    match aes128CbcDecrypt key IV_CBC ciphertext with
    | none => decryptAesCbc ciphertext rest
    | some dec =>
      match cbcPostProcess dec with
      | some s => some s
      | none => decryptAesCbc ciphertext rest

/-- The per-key tail of the decryptAesGcm loop body after a successful
authenticated decipher. -/
def gcmPostProcess (stripV20 : Bool) (dec : List Nat) : Option String :=
  let str := utf8DecodeReplace dec
  let str := if stripV20 ∧ 32 < dec.length then utf8DecodeReplace (dec.drop 32) else str
  if str ≠ "" then some str else none

/-- Source: `decryptAesGcm(ciphertext, keys, stripV20)` of crypto.ts:
12-byte nonce, 16-byte trailing auth tag, body in between; each key is
normalized to exactly 32 bytes (truncate or zero-pad) before the attempt. -/
def decryptAesGcmGo (nonce body tag : List Nat) (stripV20 : Bool) :
    List (List Nat) → Option String
  | [] => none
  | key :: rest =>
    let key32 := if 32 ≤ key.length then key.take 32 else key ++ List.replicate (32 - key.length) 0
    match aes256GcmDecrypt key32 nonce body tag with
    | none => decryptAesGcmGo nonce body tag stripV20 rest
    | some dec =>
      match gcmPostProcess stripV20 dec with
      | some s => some s
      | none => decryptAesGcmGo nonce body tag stripV20 rest

def decryptAesGcm (ciphertext : List Nat) (keys : List (List Nat))
    (stripV20 : Bool) : Option String :=
  if ciphertext.length < 12 + 16 then none
  else
    decryptAesGcmGo (ciphertext.take 12)
      ((ciphertext.drop 12).take (ciphertext.length - 16 - 12))
      (ciphertext.drop (ciphertext.length - 16))
      stripV20 keys

/-- Source: `decryptChromiumCookie(valuePlain, encryptedValue, keys, isWindows)`. -/
def decryptChromiumCookie (valuePlain : String) (encryptedValue : List Nat)
    (keys : List (List Nat)) (isWindows : Bool) : Option String :=
  if valuePlain ≠ "" then some valuePlain
  else if encryptedValue.length < 3 then none
  else
    let tag3 := utf8DecodeReplace (encryptedValue.take 3)
    if tag3 ≠ "v10" ∧ tag3 ≠ "v11" ∧ tag3 ≠ "v20" then none
    else if isWindows then decryptAesGcm (encryptedValue.drop 3) keys (tag3 == "v20")
    else decryptAesCbc (encryptedValue.drop 3) keys

/-! ## sqlite.ts: row schemas and row processing -/

/-- Source: `ChromiumCookieRow`.  `encrypted_value` is `Option` because the runtime
check `enc && (Buffer.isBuffer(enc) || enc instanceof Uint8Array)` can fail
on a null column. -/
structure ChromiumCookieRow where
  host_key : String
  name : String
  value : String
  encrypted_value : Option (List Nat)
  path : String
  expires_utc : Nat
  is_secure : Bool
  is_httponly : Bool
deriving DecidableEq

/-- Firefox cookie row as read from moz_cookies (the processing code reads
the `expiry` column selected by the query). -/
structure FirefoxCookieRow where
  host : String
  name : String
  value : String
  path : String
  expiry : Nat
deriving DecidableEq

/-- Source: `const CHROMIUM_EPOCH_OFFSET = 11644473600000000`. -/
def CHROMIUM_EPOCH_OFFSET : Nat := 11644473600000000

/-- The value-resolution step of the processChromiumRows loop body:
plaintext value if nonempty, else decrypt the encrypted blob, else skip. -/
def resolveValue (decrypt : String → List Nat → Option String)
    (r : ChromiumCookieRow) : Option String :=
  if r.value ≠ "" then some r.value
  else
    match r.encrypted_value with
    | some enc => decrypt r.value enc
    | none => none

/-- Source: `processChromiumRows(rows, domainFilter, decrypt)`; `now` is the value
of `nowChromium()` (microseconds since 1601), passed explicitly. -/
def processChromiumRows (now : Nat) (rows : List ChromiumCookieRow)
    (domainFilter : String → Bool)
    (decrypt : String → List Nat → Option String) : List (String × String) :=
  rows.foldl (fun cookies r =>
    if ¬ domainFilter r.host_key then cookies
    else
      match resolveValue decrypt r with
      | none => cookies
      | some value =>
        let exp := r.expires_utc
        if exp ≠ 0 ∧ exp < now ∧ CHROMIUM_EPOCH_OFFSET < exp then cookies
        else cookies ++ [(r.name, value)]) []

/-- Source: `processFirefoxRows(rows, domainFilter)`; `nowSec` is Unix seconds. -/
def processFirefoxRows (nowSec : Nat) (rows : List FirefoxCookieRow)
    (domainFilter : String → Bool) : List (String × String) :=
  rows.foldl (fun cookies r =>
    if ¬ domainFilter r.host then cookies
    else if 0 < r.expiry ∧ r.expiry < nowSec then cookies
    else cookies ++ [(r.name, r.value)]) []

/-- Result shape of the read*CookiesFromDb functions. -/
structure ReadResult where
  cookies : List (String × String)
  error : Option String := none
deriving DecidableEq

/-! ## The extraction environment

All external effects of one getCookies call are passed in as data:
URL parsing, `getBrowserPaths()`, `getChromiumDecryptKeys` (whose platform
dispatch and subprocess calls happen outside the pure row pipeline), the
two SQLite databases (either raw rows or a thrown-error string — the
sql.js-not-initialized case is one such error), and the two clocks. -/
structure Env where
  parseURLHostname : String → Option String
  platform : String
  browserPaths : List BrowserConfig
  keyResult : BrowserConfig → DecryptKeyResult
  chromiumDb : String → Except String (List ChromiumCookieRow)
  firefoxDb : String → Except String (List FirefoxCookieRow)
  nowUs : Nat
  nowSec : Nat

/-- Source: `readChromiumCookiesFromDb(dbPath, domainFilter, decrypt)`. -/
def readChromiumCookiesFromDb (env : Env) (dbPath : String)
    (domainFilter : String → Bool)
    (decrypt : String → List Nat → Option String) : ReadResult :=
  match env.chromiumDb dbPath with
  | .error e => ⟨[], some e⟩
  | .ok rows => ⟨processChromiumRows env.nowUs rows domainFilter decrypt, none⟩

/-- Source: `readFirefoxCookiesFromDb(dbPath, domainFilter)`. -/
def readFirefoxCookiesFromDb (env : Env) (dbPath : String)
    (domainFilter : String → Bool) : ReadResult :=
  match env.firefoxDb dbPath with
  | .error e => ⟨[], some e⟩
  | .ok rows => ⟨processFirefoxRows env.nowSec rows domainFilter, none⟩

/-! ## The cookies module: hostMatches, getCookies, toCookieHeader -/

/-- Source: `Cookie` of the cookies module. -/
structure Cookie where
  name : String
  value : String
deriving DecidableEq

/-- Source: `GetCookiesOptions`. -/
structure GetCookiesOptions where
  url : String
  names : List String
  browsers : Option (List BrowserName) := none
  chromeProfile : Option String := none
  timeoutMs : Option Nat := none

/-- Source: `GetCookiesResult`. -/
structure GetCookiesResult where
  cookies : List Cookie
  warnings : List String
deriving DecidableEq

/-- Source: `hostMatches(hostKey, hostname)`. -/
def hostMatches (hostKey hostname : String) : Bool :=
  let domain := if jsStartsWith hostKey "." then jsSlice1 hostKey else hostKey
  if hostname == domain then true
  else if jsEndsWith hostname ("." ++ domain) then true
  else if domain == hostname then true
  else false

/-- The allowlist construction of getCookies:
`names.length > 0 ? new Set(names.map(n => n.toLowerCase())) : null`. -/
def allowlistOf (names : List String) : Option (List String) :=
  if 0 < names.length then some (names.map jsToLower) else none

/-- The allowlist test of the cookie loops:
`!allowlist || allowlist.has(c.name.toLowerCase())`. -/
def allowKeep (allowlist : Option (List String)) (name : String) : Bool :=
  match allowlist with
  | none => true
  | some l => l.contains (jsToLower name)

/-- Source: `if (!cookieMap.has(name)) cookieMap.set(name, value)` on an
insertion-ordered map. -/
def insertIfAbsent (m : List (String × String)) (name value : String) :
    List (String × String) :=
  if m.any (fun p => p.1 == name) then m else m ++ [(name, value)]

/-- The cookie loop shared by both branches of getCookies. -/
def addCookies (m : List (String × String)) (cs : List (String × String))
    (allowlist : Option (List String)) : List (String × String) :=
  cs.foldl (fun m c => if allowKeep allowlist c.1 then insertIfAbsent m c.1 c.2 else m) m

/-- Config subset restriction of getCookies:
`options.browsers && options.browsers.length > 0` filters the config list. -/
def selectedConfigs (configs : List BrowserConfig)
    (browsers : Option (List BrowserName)) : List BrowserConfig :=
  match browsers with
  | some bs => if 0 < bs.length then configs.filter (fun c => bs.contains c.name) else configs
  | none => configs

/-- The per-config step of the getCookies loop, threading
(cookieMap, warnings). -/
def processConfig (env : Env) (allowlist : Option (List String))
    (domainFilter : String → Bool) (isWindows : Bool)
    (st : List (String × String) × List String) (config : BrowserConfig) :
    List (String × String) × List String :=
  match config.name with
  | .firefox =>
    let result := readFirefoxCookiesFromDb env config.cookiesPath domainFilter
    let w := match result.error with
      | some e => st.2 ++ [browserNameStr config.name ++ ": " ++ e]
      | none => st.2
    (addCookies st.1 result.cookies allowlist, w)
  | _ =>
    match env.keyResult config with
    | .err e kw => (st.1, st.2 ++ [browserNameStr config.name ++ ": " ++ e] ++ kw)
    | .ok keys _kw =>
      let decrypt := fun vp enc => decryptChromiumCookie vp enc keys isWindows
      let result := readChromiumCookiesFromDb env config.cookiesPath domainFilter decrypt
      let w := match result.error with
        | some e => st.2 ++ [browserNameStr config.name ++ ": " ++ e]
        | none => st.2
      (addCookies st.1 result.cookies allowlist, w)

/-- The body of getCookies after the URL parse succeeded. -/
def getCookiesAfterParse (env : Env) (options : GetCookiesOptions)
    (hostname : String) : GetCookiesResult :=
  let allowlist := allowlistOf options.names
  let domainFilter := fun hostKey => hostMatches hostKey hostname
  let configs := selectedConfigs env.browserPaths options.browsers
  let isWindows := env.platform == "win32"
  let st := configs.foldl (processConfig env allowlist domainFilter isWindows) ([], [])
  ⟨st.1.map (fun p => ⟨p.1, p.2⟩), st.2⟩

/-- Source: `getCookies(options)`.  A thrown URL parse (`new URL(url)`) is the
`none` case of `parseURLHostname` and yields the early
`{ cookies: [], warnings: ['Invalid URL'] }` return. -/
def getCookies (env : Env) (options : GetCookiesOptions) : GetCookiesResult :=
  match env.parseURLHostname options.url with
  | none => ⟨[], ["Invalid URL"]⟩
  | some hostname => getCookiesAfterParse env options hostname

/-! ## toCookieHeader -/

/-- JS `encodeURIComponent` unreserved set: alphanumerics and - _ . ! ~ * apostrophe ( ). -/
def isUriUnreserved (c : Char) : Bool :=
  let n := c.toNat
  (65 ≤ n ∧ n ≤ 90) ∨ (97 ≤ n ∧ n ≤ 122) ∨ (48 ≤ n ∧ n ≤ 57) ∨
  n == 45 ∨ n == 95 ∨ n == 46 ∨ n == 33 ∨ n == 126 ∨ n == 42 ∨ n == 39 ∨ n == 40 ∨ n == 41

def hexDigitUpper (n : Nat) : Char :=
  if n < 10 then Char.ofNat (48 + n) else Char.ofNat (55 + n)

/-- JS `encodeURIComponent`: unreserved characters pass through, everything
else is percent-encoded per UTF-8 byte with uppercase hex. -/
def encodeURIComponent (s : String) : String :=
  ⟨s.data.flatMap (fun c =>
    if isUriUnreserved c then [c]
    else (utf8EncodeChar c).flatMap (fun b =>
      [Char.ofNat 37, hexDigitUpper (b / 16), hexDigitUpper (b % 16)]))⟩

/-- One step of building `new Map(cookies.map(c => [c.name, c]))`: JS Map
set keeps the position of the first insertion of a key but overwrites its
value. -/
def jsMapInsert (m : List (String × Cookie)) (k : String) (v : Cookie) :
    List (String × Cookie) :=
  if m.any (fun p => p.1 == k) then m.map (fun p => if p.1 == k then (k, v) else p)
  else m ++ [(k, v)]

/-- The entry list of `new Map(cookies.map(c => [c.name, c]))`. -/
def jsMapEntries (cookies : List Cookie) : List (String × Cookie) :=
  (cookies.map (fun c => (c.name, c))).foldl (fun m p => jsMapInsert m p.1 p.2) []

/-- The percent-encoded pair `name=value` of toCookieHeader. -/
def encodePair (c : Cookie) : String :=
  encodeURIComponent c.name ++ "=" ++ encodeURIComponent c.value

/-- Source: `toCookieHeader(cookies, options)`; `options` is `none` when absent,
`some b` models `{ dedupeByName: b }`. -/
def toCookieHeader (cookies : List Cookie) (dedupeByName : Option Bool) : String :=
  let dedupe := dedupeByName ≠ some false
  let list := if dedupe then (jsMapEntries cookies).map (fun p => p.2) else cookies
  String.intercalate "; " (list.map encodePair)

/-! ## Specification-side definitions (used to state refinement claims) -/

/-- The per-config candidate cookie stream of a getCookies call, before the
allowlist and before deduplication, in processing order. -/
def configCookieList (env : Env) (domainFilter : String → Bool) (isWindows : Bool)
    (config : BrowserConfig) : List (String × String) :=
  match config.name with
  | .firefox => (readFirefoxCookiesFromDb env config.cookiesPath domainFilter).cookies
  | _ =>
    match env.keyResult config with
    | .err _ _ => []
    | .ok keys _ =>
      (readChromiumCookiesFromDb env config.cookiesPath domainFilter
        (fun vp enc => decryptChromiumCookie vp enc keys isWindows)).cookies

/-- The whole candidate cookie stream of a getCookies call, in the fixed
processing order of configs and rows. -/
def candidatesOf (env : Env) (options : GetCookiesOptions) : List (String × String) :=
  match env.parseURLHostname options.url with
  | none => []
  | some hostname =>
    (selectedConfigs env.browserPaths options.browsers).flatMap
      (configCookieList env (fun hostKey => hostMatches hostKey hostname)
        (env.platform == "win32"))

/-- First entry bound to a key in an association list (insertion order). -/
def assocLookup {α : Type} (n : String) (m : List (String × α)) : Option α :=
  (m.find? (fun p => p.1 == n)).map (fun p => p.2)

/-- First value bound to a name in an association list (insertion order). -/
def lookupName (n : String) (m : List (String × String)) : Option String :=
  (m.find? (fun p => p.1 == n)).map (fun p => p.2)

/-! ## Concrete fixtures for the claim theorems -/

/-- An AES-128 test key (bytes 0..15). -/
def c1key : List Nat := List.range 16

/-- AES-128-CBC encryption of the UTF-8 bytes of "hi" under `c1key` with
`IV_CBC` and PKCS#7 padding. -/
def c1ct : List Nat := [192, 195, 100, 83, 108, 203, 232, 133, 38, 11, 55, 248, 28, 76, 129, 145]

/-- A v10-tagged blob carrying `c1ct`. -/
def c1blob : List Nat := [0x76, 0x31, 0x30] ++ c1ct

/-- A v11-tagged blob carrying `c1ct`. -/
def c1blobW : List Nat := [0x76, 0x31, 0x31] ++ c1ct

def c1keys : List (List Nat) := [c1key]

/-- The key `c5blob` was produced with (bytes 100..115). -/
def c5keyGood : List Nat := (List.range 16).map (fun i => i + 100)

/-- A key different from `c5keyGood` whose CBC decryption of `c5ct` happens
to end in a valid PKCS#7 padding byte. -/
def c5keyBad : List Nat := [0, 86, 0, 0, 0, 0, 0, 0, 0, 0, 0, 0, 0, 0, 0, 0]

/-- AES-128-CBC encryption of the UTF-8 bytes of "abc" under `c5keyGood`
with `IV_CBC` and PKCS#7 padding. -/
def c5ct : List Nat := [137, 31, 68, 4, 185, 129, 233, 52, 156, 55, 147, 108, 121, 201, 38, 35]

/-- A v10-tagged blob carrying `c5ct`. -/
def c5blob : List Nat := [0x76, 0x31, 0x30] ++ c5ct

/-- A Chromium row with expiry 1: nonzero, far in the past, and distinct
from the epoch sentinel. -/
def rowExp1 : ChromiumCookieRow :=
  ⟨"example.com", "n", "v", none, "/", 1, false, false⟩

/-- A Chromium row with an expiry just above the epoch offset (a genuinely
past timestamp). -/
def rowPastW : ChromiumCookieRow :=
  ⟨"example.com", "n", "v", none, "/", CHROMIUM_EPOCH_OFFSET + 5, false, false⟩

/-- A Chromium session-cookie row (expiry 0). -/
def rowSessionW : ChromiumCookieRow :=
  ⟨"example.com", "s", "w", none, "/", 0, false, false⟩

/-- An environment whose URL parser always throws. -/
def envBadUrl : Env :=
  ⟨fun _ => none, "linux", [], fun _ => .err "no keys" [], fun _ => .error "no db",
   fun _ => .error "no db", 0, 0⟩

/-- An environment whose URL parser resolves every URL to example.com and
which exposes no browsers. -/
def envParseOk : Env :=
  ⟨fun _ => some "example.com", "linux", [], fun _ => .err "no keys" [],
   fun _ => .error "no db", fun _ => .error "no db", 0, 0⟩

def optsBase : GetCookiesOptions := { url := "https://example.com", names := [] }

/-- Config A of the C4 scenario. -/
def cfgA : BrowserConfig := { name := .chrome, cookiesPath := "A" }

/-- Config B of the C4 scenario. -/
def cfgB : BrowserConfig := { name := .chrome, cookiesPath := "B" }

/-- Two Chromium-family configs in order A then B, both holding a plaintext
cookie named "session" (values "alpha" and "beta" respectively). -/
def envC4 : Env :=
  ⟨fun _ => some "example.com", "linux", [cfgA, cfgB], fun _ => .ok [] [],
   fun p =>
     if p == "A" then .ok [⟨"example.com", "session", "alpha", none, "/", 0, false, false⟩]
     else if p == "B" then .ok [⟨"example.com", "session", "beta", none, "/", 0, false, false⟩]
     else .error "no db",
   fun _ => .error "no db", 0, 0⟩

def optsC4 : GetCookiesOptions := { url := "https://example.com", names := [] }

/-- One Firefox config whose database holds a cookie named "Session". -/
def envC8 : Env :=
  ⟨fun _ => some "example.com", "linux", [{ name := .firefox, cookiesPath := "F" }],
   fun _ => .err "no keys" [],
   fun _ => .error "no db",
   fun p => if p == "F" then .ok [⟨"example.com", "Session", "x", "/", 0⟩] else .error "no db",
   0, 0⟩

def optsC8a : GetCookiesOptions := { url := "https://example.com", names := ["session"] }

def optsC8b : GetCookiesOptions := { url := "https://example.com", names := [] }


/-- The string the decoder produces from the bad-key decryption of `c5ct`
(a mix of replacement characters and control bytes). -/
def c5garbage : String :=
  ⟨[Char.ofNat 65533, Char.ofNat 14, Char.ofNat 12, Char.ofNat 72, Char.ofNat 118,
    Char.ofNat 65533, Char.ofNat 65533, Char.ofNat 65533, Char.ofNat 65533, Char.ofNat 4,
    Char.ofNat 73, Char.ofNat 1, Char.ofNat 68]⟩

/-! # Theorems -/

/-! ## Table validation -/

set_option maxRecDepth 10000 in
set_option maxHeartbeats 1600000 in
/-- The literal S-box table agrees with the FIPS-197 definition. -/
theorem sboxTable_eq_sboxOf : sboxTable = (List.range 256).map sboxOf := by decide

set_option maxRecDepth 10000 in
set_option maxHeartbeats 1600000 in
/-- The literal inverse S-box inverts the S-box on every byte. -/
theorem invSbox_sbox : ((List.range 256).all (fun x => invSbox (sbox x) == x)) = true := by
  decide

/-- C7: the domain predicate matches a cookie host key ".example.com"
against target hostname "www.example.com" and against "example.com", but
not against "notexample.com". -/
theorem c7_hostMatches_examples :
    hostMatches ".example.com" "www.example.com" = true ∧
    hostMatches ".example.com" "example.com" = true ∧
    hostMatches ".example.com" "notexample.com" = false := by decide

/-- C6: on Linux the key provider always returns success carrying the
keyring-derived key (when the lookup produced a nonempty trimmed password)
followed by the two constant fallbacks PBKDF2("peanuts") and PBKDF2("")
(1 iteration, salt "saltysalt", 16-byte key, HMAC-SHA1), so the candidate
list is nonempty with at most 3 keys and the failure branch is
unreachable. -/
theorem c6_linuxKeys (config : BrowserConfig) (warnings : List String)
    (keyringOut : Option String) :
    getLinuxKeys config warnings keyringOut =
      .ok (keyringKeys keyringOut ++ [deriveKey "peanuts" 1, deriveKey "" 1]) warnings ∧
    0 < (keyringKeys keyringOut ++ [deriveKey "peanuts" 1, deriveKey "" 1]).length ∧
    (keyringKeys keyringOut ++ [deriveKey "peanuts" 1, deriveKey "" 1]).length ≤ 3 := by
  refine ⟨?_, ?_, ?_⟩ <;> cases keyringOut with
  | none => simp [getLinuxKeys, keyringKeys]
  | some out =>
    by_cases h : jsTrim out ≠ "" <;> simp [getLinuxKeys, keyringKeys, h]

/-- C3 (amended): a Chromium row that passes the domain filter and has a
resolvable value is excluded by the expiry filter exactly when its expiry
is nonzero, strictly below now (in browser-epoch microseconds), and
strictly above the epoch offset 11644473600000000; a row with expiry 0 is
never excluded.  (The source guard compares the expiry strictly against
the offset, not for mere inequality with it as the claim states.) -/
theorem c3_expiry_amended (now : Nat) (domainFilter : String → Bool)
    (decrypt : String → List Nat → Option String) (row : ChromiumCookieRow) (v : String)
    (hf : domainFilter row.host_key = true) (hv : resolveValue decrypt row = some v) :
    processChromiumRows now [row] domainFilter decrypt =
      (if row.expires_utc ≠ 0 ∧ row.expires_utc < now ∧ CHROMIUM_EPOCH_OFFSET < row.expires_utc
       then [] else [(row.name, v)]) := by
  simp [processChromiumRows, hf, hv]

/-- Witness for C3: a row with a genuinely past expiry (just above the
epoch offset) is excluded; a session row (expiry 0) is kept. -/
theorem c3_expiry_amended_witness :
    processChromiumRows (CHROMIUM_EPOCH_OFFSET + 1000000) [rowPastW] (fun _ => true)
      (fun _ _ => none) = [] ∧
    processChromiumRows (CHROMIUM_EPOCH_OFFSET + 1000000) [rowSessionW] (fun _ => true)
      (fun _ _ => none) = [("s", "w")] := by
  constructor
  · rw [c3_expiry_amended _ _ _ _ "v" rfl (by decide)]
    decide
  · rw [c3_expiry_amended _ _ _ _ "w" rfl (by decide)]
    decide

/-- C3 counterexample: for the concrete row with expiry 1, the claim's
exclusion condition (nonzero, before now, not equal to the sentinel) holds,
yet the code keeps the row, because the code additionally requires the
expiry to exceed the epoch offset. -/
theorem c3_counterexample :
    ((1 : Nat) ≠ 0 ∧ (1 : Nat) < CHROMIUM_EPOCH_OFFSET + 1000000 ∧
      (1 : Nat) ≠ CHROMIUM_EPOCH_OFFSET) ∧
    processChromiumRows (CHROMIUM_EPOCH_OFFSET + 1000000) [rowExp1] (fun _ => true)
      (fun _ _ => none) = [("n", "v")] :=
  ⟨by decide, by decide⟩

/-- C2: a getCookies call returns the early Invalid URL result exactly when
the URL parse throws; for every successfully parsed URL it returns the
total aggregation over the resolved configs (the embedding is a total
function, so nothing past URL parsing can raise). -/
theorem c2_url_parse (env : Env) (options : GetCookiesOptions) :
    (env.parseURLHostname options.url = none →
      getCookies env options = ⟨[], ["Invalid URL"]⟩) ∧
    (∀ h, env.parseURLHostname options.url = some h →
      getCookies env options = getCookiesAfterParse env options h) := by
  constructor
  · intro hp; simp [getCookies, hp]
  · intro h hp; simp [getCookies, hp]

/-- Witness for C2 at concrete environments: the always-throwing parser
yields the Invalid URL result, a succeeding parser yields the
aggregation. -/
theorem c2_url_parse_witness :
    getCookies envBadUrl optsBase = ⟨[], ["Invalid URL"]⟩ ∧
    getCookies envParseOk optsBase = getCookiesAfterParse envParseOk optsBase "example.com" :=
  ⟨(c2_url_parse envBadUrl optsBase).1 rfl,
   (c2_url_parse envParseOk optsBase).2 "example.com" rfl⟩

/-- C10 counterexample: prepending a dot to the host key ".example.com"
(which already starts with a dot) changes the match result against
"www.example.com", so the match is not invariant under prepending a dot for
every host key. -/
theorem c10_counterexample :
    hostMatches ".example.com" "www.example.com" = true ∧
    hostMatches ("." ++ ".example.com") "www.example.com" = false := by decide

/-- C10 (amended): for every host key that does not already start with a
dot, prepending a dot leaves the match result unchanged for every target
hostname; in particular the host-only key "example.com" matches the
subdomain hostname "www.example.com". -/
theorem c10_amended (h n : String) (hnd : jsStartsWith h "." = false) :
    hostMatches ("." ++ h) n = hostMatches h n ∧
    hostMatches "example.com" "www.example.com" = true := by
  refine ⟨?_, by decide⟩
  obtain ⟨l⟩ := h
  have hd : ("." ++ String.mk l) = String.mk (Char.ofNat 46 :: l) := rfl
  rw [hd]
  have h1 : jsStartsWith (String.mk (Char.ofNat 46 :: l)) "." = true := by
    simp [jsStartsWith, List.isPrefixOf]
  unfold hostMatches
  rw [h1, hnd]
  simp [jsSlice1]

/-- Witness for C10 at the concrete dotless host key "example.com". -/
theorem c10_amended_witness :
    hostMatches ("." ++ "example.com") "www.example.com" =
      hostMatches "example.com" "www.example.com" ∧
    hostMatches "example.com" "www.example.com" = true :=
  c10_amended "example.com" "www.example.com" (by decide)

/-- Unfolding lemma for one step of the decryptAesCbc key loop. -/
theorem decryptAesCbc_cons (ct key : List Nat) (rest : List (List Nat)) :
    decryptAesCbc ct (key :: rest) =
      (match aes128CbcDecrypt key IV_CBC ct with
       | none => decryptAesCbc ct rest
       | some dec =>
         match cbcPostProcess dec with
         | some s => some s
         | none => decryptAesCbc ct rest) := rfl

/-- A v10-tagged blob with empty plaintext column takes the CBC path off
Windows. -/
theorem decrypt_v10_cbc (ct : List Nat) (keys : List (List Nat)) :
    decryptChromiumCookie "" ([0x76, 0x31, 0x30] ++ ct) keys false = decryptAesCbc ct keys := by
  have e1 : utf8DecodeReplace [118, 49, 48] = "v10" := rfl
  have e3 : ¬ (ct.length + 1 + 1 + 1 < 3) := by omega
  simp [decryptChromiumCookie, e1, e3]

/-- A v11-tagged blob with empty plaintext column takes the CBC path off
Windows. -/
theorem decrypt_v11_cbc (ct : List Nat) (keys : List (List Nat)) :
    decryptChromiumCookie "" ([0x76, 0x31, 0x31] ++ ct) keys false = decryptAesCbc ct keys := by
  have e1 : utf8DecodeReplace [118, 49, 49] = "v11" := rfl
  have e3 : ¬ (ct.length + 1 + 1 + 1 < 3) := by omega
  simp [decryptChromiumCookie, e1, e3]

/-- A v10-tagged blob with empty plaintext column takes the GCM path on
Windows (no v20 prefix stripping). -/
theorem decrypt_v10_win (ct : List Nat) (keys : List (List Nat)) :
    decryptChromiumCookie "" ([0x76, 0x31, 0x30] ++ ct) keys true =
      decryptAesGcm ct keys false := by
  have e1 : utf8DecodeReplace [118, 49, 48] = "v10" := rfl
  have e3 : ¬ (ct.length + 1 + 1 + 1 < 3) := by omega
  have e4 : (("v10" : String) == "v20") = false := by decide
  simp [decryptChromiumCookie, e1, e3, e4]

/-- A v11-tagged blob with empty plaintext column takes the GCM path on
Windows (no v20 prefix stripping). -/
theorem decrypt_v11_win (ct : List Nat) (keys : List (List Nat)) :
    decryptChromiumCookie "" ([0x76, 0x31, 0x31] ++ ct) keys true =
      decryptAesGcm ct keys false := by
  have e1 : utf8DecodeReplace [118, 49, 49] = "v11" := rfl
  have e3 : ¬ (ct.length + 1 + 1 + 1 < 3) := by omega
  have e4 : (("v11" : String) == "v20") = false := by decide
  simp [decryptChromiumCookie, e1, e3, e4]

set_option maxRecDepth 300000 in
set_option maxHeartbeats 2000000 in
/-- C1 counterexample: the concrete v10 blob `c1blob` decrypts through the
AES-128-CBC path when the platform flag is off but is routed to the
AES-256-GCM path (which rejects it) when the flag is on, so the cipher
scheme is not selected purely from the 3-byte tag independent of the
running platform. -/
theorem c1_counterexample :
    decryptChromiumCookie "" c1blob c1keys false = some "hi" ∧
    decryptChromiumCookie "" c1blob c1keys true = none := by
  have h1 : aes128CbcDecrypt c1key IV_CBC c1ct = some [104, 105] := by decide
  have h2 : cbcPostProcess [104, 105] = some "hi" := by decide
  have hcbc : decryptAesCbc c1ct c1keys = some "hi" := by
    show decryptAesCbc c1ct [c1key] = some "hi"
    rw [decryptAesCbc_cons, h1]
    simp only [h2]
  constructor
  · show decryptChromiumCookie "" ([0x76, 0x31, 0x30] ++ c1ct) c1keys false = some "hi"
    rw [decrypt_v10_cbc, hcbc]
  · show decryptChromiumCookie "" ([0x76, 0x31, 0x30] ++ c1ct) c1keys true = none
    rw [decrypt_v10_win]
    decide

/-- C1 (amended): for every blob tagged v10 or v11 with an empty plaintext
column, the non-Windows path decrypts with AES-128-CBC (`decryptAesCbc`,
whose fixed IV is the sixteen-space constant `IV_CBC`), while with the
Windows flag set the very same tags are routed to AES-256-GCM: the cipher
scheme is selected by the platform flag together with the tag, not by the
tag alone. -/
theorem c1_amended (blob : List Nat) (keys : List (List Nat))
    (htag : blob.take 3 = [0x76, 0x31, 0x30] ∨ blob.take 3 = [0x76, 0x31, 0x31]) :
    decryptChromiumCookie "" blob keys false = decryptAesCbc (blob.drop 3) keys ∧
    decryptChromiumCookie "" blob keys true = decryptAesGcm (blob.drop 3) keys false ∧
    IV_CBC = List.replicate 16 0x20 := by
  rcases htag with h | h
  · have hsplit : blob = [0x76, 0x31, 0x30] ++ blob.drop 3 := by
      conv_lhs => rw [← List.take_append_drop 3 blob, h]
    refine ⟨?_, ?_, rfl⟩
    · conv_lhs => rw [hsplit]
      exact decrypt_v10_cbc (blob.drop 3) keys
    · conv_lhs => rw [hsplit]
      exact decrypt_v10_win (blob.drop 3) keys
  · have hsplit : blob = [0x76, 0x31, 0x31] ++ blob.drop 3 := by
      conv_lhs => rw [← List.take_append_drop 3 blob, h]
    refine ⟨?_, ?_, rfl⟩
    · conv_lhs => rw [hsplit]
      exact decrypt_v11_cbc (blob.drop 3) keys
    · conv_lhs => rw [hsplit]
      exact decrypt_v11_win (blob.drop 3) keys

/-- Witness for C1 at the concrete v11 blob `c1blobW`. -/
theorem c1_amended_witness :
    decryptChromiumCookie "" c1blobW c1keys false = decryptAesCbc (c1blobW.drop 3) c1keys ∧
    decryptChromiumCookie "" c1blobW c1keys true = decryptAesGcm (c1blobW.drop 3) c1keys false ∧
    IV_CBC = List.replicate 16 0x20 :=
  c1_amended c1blobW c1keys (Or.inr (by decide))

/-- A successful cbcPostProcess result is a nonempty string. -/
theorem cbcPostProcess_ne_empty (dec : List Nat) (s : String)
    (h : cbcPostProcess dec = some s) : s ≠ "" := by
  simp only [cbcPostProcess] at h
  split at h <;> split at h <;>
    first
      | (injection h with h2; subst h2; assumption)
      | exact absurd h (by simp)

/-- A successful gcmPostProcess result is a nonempty string. -/
theorem gcmPostProcess_ne_empty (strip : Bool) (dec : List Nat) (s : String)
    (h : gcmPostProcess strip dec = some s) : s ≠ "" := by
  simp only [gcmPostProcess] at h
  split at h <;> split at h <;>
    first
      | (injection h with h2; subst h2; assumption)
      | exact absurd h (by simp)

/-- decryptAesCbc never returns the empty string. -/
theorem decryptAesCbc_ne_empty (ct : List Nat) :
    ∀ (keys : List (List Nat)) (s : String), decryptAesCbc ct keys = some s → s ≠ ""
  | [], s, h => by simp [decryptAesCbc] at h
  | key :: rest, s, h => by
    rw [decryptAesCbc_cons] at h
    cases had : aes128CbcDecrypt key IV_CBC ct with
    | none =>
      simp only [had] at h
      exact decryptAesCbc_ne_empty ct rest s h
    | some dec =>
      simp only [had] at h
      cases hp : cbcPostProcess dec with
      | none =>
        simp only [hp] at h
        exact decryptAesCbc_ne_empty ct rest s h
      | some t =>
        simp only [hp] at h
        injection h with h2
        exact h2 ▸ cbcPostProcess_ne_empty dec t hp

/-- Unfolding lemma for one step of the decryptAesGcm key loop. -/
theorem decryptAesGcmGo_cons (nonce body tag : List Nat) (strip : Bool)
    (key : List Nat) (rest : List (List Nat)) :
    decryptAesGcmGo nonce body tag strip (key :: rest) =
      (let key32 := if 32 ≤ key.length then key.take 32
                    else key ++ List.replicate (32 - key.length) 0
       match aes256GcmDecrypt key32 nonce body tag with
       | none => decryptAesGcmGo nonce body tag strip rest
       | some dec =>
         match gcmPostProcess strip dec with
         | some s => some s
         | none => decryptAesGcmGo nonce body tag strip rest) := rfl

/-- decryptAesGcmGo never returns the empty string. -/
theorem decryptAesGcmGo_ne_empty (nonce body tag : List Nat) (strip : Bool) :
    ∀ (keys : List (List Nat)) (s : String),
      decryptAesGcmGo nonce body tag strip keys = some s → s ≠ ""
  | [], s, h => by simp [decryptAesGcmGo] at h
  | key :: rest, s, h => by
    rw [decryptAesGcmGo_cons] at h
    cases had : aes256GcmDecrypt
        (if 32 ≤ key.length then key.take 32 else key ++ List.replicate (32 - key.length) 0)
        nonce body tag with
    | none =>
      simp only [had] at h
      exact decryptAesGcmGo_ne_empty nonce body tag strip rest s h
    | some dec =>
      simp only [had] at h
      cases hp : gcmPostProcess strip dec with
      | none =>
        simp only [hp] at h
        exact decryptAesGcmGo_ne_empty nonce body tag strip rest s h
      | some t =>
        simp only [hp] at h
        injection h with h2
        exact h2 ▸ gcmPostProcess_ne_empty strip dec t hp

/-- decryptAesGcm never returns the empty string. -/
theorem decryptAesGcm_ne_empty (ct : List Nat) (keys : List (List Nat)) (strip : Bool)
    (s : String) (h : decryptAesGcm ct keys strip = some s) : s ≠ "" := by
  unfold decryptAesGcm at h
  split at h
  · exact absurd h (by simp)
  · exact decryptAesGcmGo_ne_empty _ _ _ strip keys s h

/-- C5 (amended): the Decryptor is a total function into an option type
(never raises): it returns either failure or a nonempty string (a wrong key
usually fails the PKCS padding check, but when the padding happens to
validate it can return garbage); a blob shorter than 3 bytes or whose
3-byte tag decodes to none of v10/v11/v20 fails immediately. -/
theorem c5_amended (valuePlain : String) (enc : List Nat) (keys : List (List Nat)) (w : Bool) :
    (decryptChromiumCookie valuePlain enc keys w = none ∨
      ∃ s, decryptChromiumCookie valuePlain enc keys w = some s ∧ s ≠ "") ∧
    (valuePlain = "" → enc.length < 3 →
      decryptChromiumCookie valuePlain enc keys w = none) ∧
    (valuePlain = "" →
      utf8DecodeReplace (enc.take 3) ≠ "v10" →
      utf8DecodeReplace (enc.take 3) ≠ "v11" →
      utf8DecodeReplace (enc.take 3) ≠ "v20" →
      decryptChromiumCookie valuePlain enc keys w = none) := by
  refine ⟨?_, ?_, ?_⟩
  · by_cases hv : valuePlain = ""
    · subst hv
      by_cases hlen : enc.length < 3
      · left
        simp [decryptChromiumCookie, hlen]
      · by_cases htag : utf8DecodeReplace (enc.take 3) ≠ "v10" ∧
            utf8DecodeReplace (enc.take 3) ≠ "v11" ∧ utf8DecodeReplace (enc.take 3) ≠ "v20"
        · left
          simp only [decryptChromiumCookie, if_neg hlen, if_pos htag, ne_eq,
            not_true_eq_false, if_false]
        · have hD : decryptChromiumCookie "" enc keys w =
              (if w then decryptAesGcm (enc.drop 3) keys (utf8DecodeReplace (enc.take 3) == "v20")
               else decryptAesCbc (enc.drop 3) keys) := by
            simp only [decryptChromiumCookie, if_neg hlen, if_neg htag, ne_eq,
              not_true_eq_false, if_false]
          rw [hD]
          cases w with
          | false =>
            cases hr : decryptAesCbc (enc.drop 3) keys with
            | none => left; simp [hr]
            | some t =>
              right
              exact ⟨t, by simp [hr], decryptAesCbc_ne_empty _ _ _ hr⟩
          | true =>
            cases hr : decryptAesGcm (enc.drop 3) keys (utf8DecodeReplace (enc.take 3) == "v20") with
            | none => left; simp [hr]
            | some t =>
              right
              exact ⟨t, by simp [hr], decryptAesGcm_ne_empty _ _ _ _ hr⟩
    · right
      exact ⟨valuePlain, by simp [decryptChromiumCookie, hv], hv⟩
  · intro hv hlen
    subst hv
    simp [decryptChromiumCookie, hlen]
  · intro hv h10 h11 h20
    subst hv
    by_cases hlen : enc.length < 3
    · simp [decryptChromiumCookie, hlen]
    · simp [decryptChromiumCookie, hlen, h10, h11, h20]

/-- Witness for C5 at concrete inputs: a 2-byte blob and a zero-tag 3-byte
blob both fail immediately, and the totality disjunction holds at the
former. -/
theorem c5_amended_witness :
    (decryptChromiumCookie "" [1, 2] [] false = none ∨
      ∃ s, decryptChromiumCookie "" [1, 2] [] false = some s ∧ s ≠ "") ∧
    decryptChromiumCookie "" [1, 2] [] false = none ∧
    decryptChromiumCookie "" [0, 0, 0] [] false = none :=
  ⟨(c5_amended "" [1, 2] [] false).1,
   (c5_amended "" [1, 2] [] false).2.1 rfl (by decide),
   (c5_amended "" [0, 0, 0] [] false).2.2 rfl (by decide) (by decide) (by decide)⟩

set_option maxRecDepth 300000 in
set_option maxHeartbeats 2000000 in
/-- C5 counterexample: decrypting the v10 blob `c5blob` (produced under
`c5keyGood`, which recovers "abc") with the different key `c5keyBad` does
not fail: the PKCS padding happens to validate and the Decryptor returns
the garbage string `c5garbage`. -/
theorem c5_counterexample :
    decryptChromiumCookie "" c5blob [c5keyGood] false = some "abc" ∧
    c5keyBad ≠ c5keyGood ∧
    decryptChromiumCookie "" c5blob [c5keyBad] false = some c5garbage ∧
    c5garbage ≠ "abc" := by
  have g1 : aes128CbcDecrypt c5keyGood IV_CBC c5ct = some [97, 98, 99] := by decide
  have g2 : cbcPostProcess [97, 98, 99] = some "abc" := by decide
  have b1 : aes128CbcDecrypt c5keyBad IV_CBC c5ct =
      some [212, 14, 12, 72, 118, 242, 168, 187, 224, 156, 222, 4, 73, 1, 68] := by decide
  have b2 : cbcPostProcess [212, 14, 12, 72, 118, 242, 168, 187, 224, 156, 222, 4, 73, 1, 68] =
      some c5garbage := by decide
  refine ⟨?_, by decide, ?_, by decide⟩
  · show decryptChromiumCookie "" ([0x76, 0x31, 0x30] ++ c5ct) [c5keyGood] false = some "abc"
    rw [decrypt_v10_cbc, decryptAesCbc_cons, g1]
    simp only [g2]
  · show decryptChromiumCookie "" ([0x76, 0x31, 0x30] ++ c5ct) [c5keyBad] false = some c5garbage
    rw [decrypt_v10_cbc, decryptAesCbc_cons, b1]
    simp only [b2]

/-! ## Association-list lemmas -/

theorem assocLookup_nil {α : Type} (n : String) : assocLookup n ([] : List (String × α)) = none :=
  rfl

theorem assocLookup_cons {α : Type} (n : String) (p : String × α) (m : List (String × α)) :
    assocLookup n (p :: m) = if p.1 == n then some p.2 else assocLookup n m := by
  unfold assocLookup
  cases hp : (p.1 == n) <;> simp [List.find?_cons, hp]

theorem lookupName_eq_assocLookup (n : String) (m : List (String × String)) :
    lookupName n m = assocLookup n m := rfl

theorem assocLookup_append_single {α : Type} (n k : String) (v : α) (m : List (String × α)) :
    assocLookup n (m ++ [(k, v)]) =
      (match assocLookup n m with
       | some w => some w
       | none => if k == n then some v else none) := by
  induction m with
  | nil => simp [assocLookup_cons, assocLookup_nil]
  | cons p m ih =>
    rw [List.cons_append, assocLookup_cons, assocLookup_cons]
    cases hp : (p.1 == n) <;> simp [hp, ih]

theorem any_eq_false_assocLookup {α : Type} (n : String) (m : List (String × α))
    (h : m.any (fun p => p.1 == n) = false) : assocLookup n m = none := by
  induction m with
  | nil => rfl
  | cons p m ih =>
    simp only [List.any_cons, Bool.or_eq_false_iff] at h
    rw [assocLookup_cons, h.1]
    simpa using ih h.2

theorem any_eq_true_assocLookup_isSome {α : Type} (n : String) (m : List (String × α))
    (h : m.any (fun p => p.1 == n) = true) : (assocLookup n m).isSome := by
  induction m with
  | nil => simp at h
  | cons p m ih =>
    simp only [List.any_cons, Bool.or_eq_true] at h
    rw [assocLookup_cons]
    cases hp : (p.1 == n) with
    | false =>
      simp only [Bool.false_eq_true, if_false]
      rcases h with h | h
      · rw [hp] at h
        exact absurd h (by simp)
      · exact ih h
    | true => simp

/-! ## First-seen-wins lemmas for the getCookies cookie map -/

theorem addCookies_nil (m : List (String × String)) (al : Option (List String)) :
    addCookies m [] al = m := rfl

theorem addCookies_cons (m : List (String × String)) (c : String × String)
    (ys : List (String × String)) (al : Option (List String)) :
    addCookies m (c :: ys) al =
      addCookies (if allowKeep al c.1 then insertIfAbsent m c.1 c.2 else m) ys al := rfl

theorem addCookies_append (m : List (String × String)) (xs ys : List (String × String))
    (al : Option (List String)) :
    addCookies m (xs ++ ys) al = addCookies (addCookies m xs al) ys al := by
  simp [addCookies, List.foldl_append]

theorem lookupName_addCookies (al : Option (List String)) (n : String) :
    ∀ (ys : List (String × String)) (m : List (String × String)),
      lookupName n (addCookies m ys al) =
        (match lookupName n m with
         | some v => some v
         | none => lookupName n (ys.filter (fun p => allowKeep al p.1)))
  | [], m => by
    rw [addCookies_nil]
    cases hm : lookupName n m <;> rfl
  | c :: ys, m => by
    rw [addCookies_cons]
    cases ha : allowKeep al c.1 with
    | false =>
      rw [if_neg (by simp [ha]), lookupName_addCookies al n ys m]
      simp [List.filter_cons, ha]
    | true =>
      rw [if_pos (by simp [ha]), lookupName_addCookies al n ys (insertIfAbsent m c.1 c.2)]
      have hfc : (c :: ys).filter (fun p => allowKeep al p.1) =
          c :: ys.filter (fun p => allowKeep al p.1) := by
        simp [List.filter_cons, ha]
      rw [hfc]
      rw [lookupName_eq_assocLookup, lookupName_eq_assocLookup, lookupName_eq_assocLookup,
        lookupName_eq_assocLookup, assocLookup_cons]
      unfold insertIfAbsent
      cases hany : m.any (fun p => p.1 == c.1) with
      | true =>
        simp only [hany, if_true]
        cases hm : assocLookup n m with
        | some v => simp
        | none =>
          cases hcn : (c.1 == n) with
          | false => simp
          | true =>
            have hcn2 : c.1 = n := by
              have := hcn
              simpa using this
            subst hcn2
            have := any_eq_true_assocLookup_isSome c.1 m hany
            rw [hm] at this
            simp at this
      | false =>
        simp only [hany, Bool.false_eq_true, if_false]
        rw [assocLookup_append_single]
        cases hm : assocLookup n m with
        | some v => simp
        | none =>
          simp only [hm]
          by_cases hcn : c.1 = n <;> simp [hcn]

theorem not_mem_keys_of_any_eq_false (m : List (String × String)) (k : String)
    (h : m.any (fun p => p.1 == k) = false) : k ∉ m.map Prod.fst := by
  intro hk
  rw [List.mem_map] at hk
  obtain ⟨p, hp, he⟩ := hk
  have ht : m.any (fun p => p.1 == k) = true := by
    apply List.any_eq_true.2
    exact ⟨p, hp, by simp [he]⟩
  rw [ht] at h
  exact absurd h (by simp)

theorem nodup_insertIfAbsent (m : List (String × String)) (k v : String)
    (hm : (m.map Prod.fst).Nodup) : ((insertIfAbsent m k v).map Prod.fst).Nodup := by
  unfold insertIfAbsent
  cases hany : m.any (fun p => p.1 == k) with
  | true => simpa [hany] using hm
  | false =>
    simp only [hany, Bool.false_eq_true, if_false, List.map_append, List.map_cons,
      List.map_nil]
    rw [List.nodup_append]
    refine ⟨hm, List.nodup_singleton k, ?_⟩
    intro a ha hb
    rw [List.mem_singleton] at hb
    exact not_mem_keys_of_any_eq_false m k hany (hb ▸ ha)

theorem nodup_addCookies (al : Option (List String)) :
    ∀ (ys : List (String × String)) (m : List (String × String)),
      (m.map Prod.fst).Nodup → ((addCookies m ys al).map Prod.fst).Nodup
  | [], m, hm => hm
  | c :: ys, m, hm => by
    rw [addCookies_cons]
    cases ha : allowKeep al c.1 with
    | false =>
      rw [if_neg (by simp [ha])]
      exact nodup_addCookies al ys m hm
    | true =>
      rw [if_pos (by simp [ha])]
      exact nodup_addCookies al ys _ (nodup_insertIfAbsent m c.1 c.2 hm)

/-! ## The getCookies fold refines the candidate stream -/

theorem processConfig_fst (env : Env) (al : Option (List String))
    (domainFilter : String → Bool) (iw : Bool)
    (st : List (String × String) × List String) (cfg : BrowserConfig) :
    (processConfig env al domainFilter iw st cfg).1 =
      addCookies st.1 (configCookieList env domainFilter iw cfg) al := by
  cases hn : cfg.name with
  | firefox => simp [processConfig, configCookieList, hn]
  | chrome =>
    cases hk : env.keyResult cfg with
    | ok keys kw => simp [processConfig, configCookieList, hn, hk]
    | err e kw => simp [processConfig, configCookieList, hn, hk, addCookies_nil]
  | edge =>
    cases hk : env.keyResult cfg with
    | ok keys kw => simp [processConfig, configCookieList, hn, hk]
    | err e kw => simp [processConfig, configCookieList, hn, hk, addCookies_nil]
  | safari =>
    cases hk : env.keyResult cfg with
    | ok keys kw => simp [processConfig, configCookieList, hn, hk]
    | err e kw => simp [processConfig, configCookieList, hn, hk, addCookies_nil]
  | arc =>
    cases hk : env.keyResult cfg with
    | ok keys kw => simp [processConfig, configCookieList, hn, hk]
    | err e kw => simp [processConfig, configCookieList, hn, hk, addCookies_nil]

theorem foldl_processConfig_fst (env : Env) (al : Option (List String))
    (domainFilter : String → Bool) (iw : Bool) :
    ∀ (configs : List BrowserConfig) (st : List (String × String) × List String),
      (configs.foldl (processConfig env al domainFilter iw) st).1 =
        addCookies st.1 (configs.flatMap (configCookieList env domainFilter iw)) al
  | [], st => by simp [addCookies_nil]
  | cfg :: configs, st => by
    rw [List.foldl_cons, foldl_processConfig_fst env al domainFilter iw configs]
    rw [processConfig_fst]
    have hfm : (cfg :: configs).flatMap (configCookieList env domainFilter iw) =
        configCookieList env domainFilter iw cfg ++
          configs.flatMap (configCookieList env domainFilter iw) := by
      simp [List.flatMap]
    rw [hfm, addCookies_append]

theorem map_cookie_pairs (l : List (String × String)) :
    ((l.map (fun p => Cookie.mk p.1 p.2)).map (fun c => (c.name, c.value))) = l := by
  induction l with
  | nil => rfl
  | cons p l ih => simp [ih]

theorem map_cookie_names (l : List (String × String)) :
    ((l.map (fun p => Cookie.mk p.1 p.2)).map Cookie.name) = l.map Prod.fst := by
  induction l with
  | nil => rfl
  | cons p l ih => simp [ih]

/-- C4: within one extraction call at most one cookie per distinct name
survives, and the value bound to each name is the first one seen, in the
fixed processing order of configs and rows, among the candidates passing
the filters (the first match in the filtered candidate stream); in the
concrete two-config scenario with configs A then B both carrying "session",
the returned value is A's. -/
theorem c4_firstSeenWins :
    (∀ (env : Env) (options : GetCookiesOptions),
      (((getCookies env options).cookies).map Cookie.name).Nodup) ∧
    (∀ (env : Env) (options : GetCookiesOptions) (n : String),
      lookupName n (((getCookies env options).cookies).map (fun c => (c.name, c.value))) =
        lookupName n ((candidatesOf env options).filter
          (fun p => allowKeep (allowlistOf options.names) p.1))) ∧
    getCookies envC4 optsC4 = ⟨[⟨"session", "alpha"⟩], []⟩ := by
  refine ⟨?_, ?_, by decide⟩
  · intro env options
    unfold getCookies
    cases hp : env.parseURLHostname options.url with
    | none => simp
    | some h =>
      unfold getCookiesAfterParse
      simp only []
      rw [map_cookie_names, foldl_processConfig_fst]
      exact nodup_addCookies _ _ [] (by simp)
  · intro env options n
    unfold getCookies candidatesOf
    cases hp : env.parseURLHostname options.url with
    | none => simp [lookupName]
    | some h =>
      unfold getCookiesAfterParse
      simp only []
      rw [map_cookie_pairs, foldl_processConfig_fst, lookupName_addCookies]
      rfl

/-! ## Allowlist lemmas -/

theorem contains_map_lower (x : String) : ∀ (l : List String),
    (l.map jsToLower).contains x = l.any (fun n => x == jsToLower n)
  | [] => rfl
  | n :: l => by
    rw [List.map_cons]
    cases hx : (x == jsToLower n) with
    | true =>
      have h1 : (jsToLower n :: l.map jsToLower).contains x = true := by
        rw [List.contains_cons, hx]
        rfl
      rw [h1, List.any_cons, hx]
      rfl
    | false =>
      have h1 : (jsToLower n :: l.map jsToLower).contains x = (l.map jsToLower).contains x := by
        rw [List.contains_cons, hx]
        rfl
      rw [h1, contains_map_lower x l, List.any_cons, hx]
      rfl

/-- C8: the cookie-name allowlist is applied case-insensitively (both the
allowlist entries and the row name are lowercased before comparison), and
an empty allowlist disables name filtering; concretely, a Firefox row named
"Session" is kept both under the allowlist containing "session" and under
the empty allowlist. -/
theorem c8_allowlist :
    (∀ (names : List String) (name : String),
      allowKeep (allowlistOf names) name =
        (names.isEmpty || names.any (fun n => jsToLower name == jsToLower n))) ∧
    getCookies envC8 optsC8a = ⟨[⟨"Session", "x"⟩], []⟩ ∧
    getCookies envC8 optsC8b = ⟨[⟨"Session", "x"⟩], []⟩ := by
  refine ⟨?_, by decide, by decide⟩
  intro names name
  cases names with
  | nil => rfl
  | cons n l =>
    have h1 : allowlistOf (n :: l) = some ((n :: l).map jsToLower) := by
      simp [allowlistOf]
    rw [h1]
    show ((n :: l).map jsToLower).contains (jsToLower name) = _
    rw [contains_map_lower]
    simp

/-! ## JS Map (last-value-wins) lemmas -/

theorem assocLookup_update_ne {α : Type} (k : String) (v : α) (n : String)
    (hkn : (k == n) = false) :
    ∀ (m : List (String × α)),
      assocLookup n (m.map (fun p => if p.1 == k then (k, v) else p)) = assocLookup n m
  | [] => rfl
  | q :: m => by
    rw [List.map_cons]
    by_cases hq : q.1 = k
    · have hqb : (q.1 == k) = true := by simp [hq]
      have e1 : (if q.1 == k then (k, v) else q) = (k, v) := if_pos hqb
      rw [e1, assocLookup_cons, assocLookup_cons, hkn]
      have hqn : (q.1 == n) = false := by rw [hq]; exact hkn
      rw [hqn]
      simp only [Bool.false_eq_true, if_false]
      exact assocLookup_update_ne k v n hkn m
    · have hqb : (q.1 == k) = false := by simp [hq]
      have e1 : (if q.1 == k then (k, v) else q) = q := if_neg (by simp [hqb])
      rw [e1, assocLookup_cons, assocLookup_cons]
      by_cases hqn : q.1 = n
      · have hqnb : (q.1 == n) = true := by simp [hqn]
        rw [hqnb]
        rfl
      · have hqnb : (q.1 == n) = false := by simp [hqn]
        rw [hqnb]
        simp only [Bool.false_eq_true, if_false]
        exact assocLookup_update_ne k v n hkn m

theorem assocLookup_update_eq {α : Type} (k : String) (v : α) :
    ∀ (m : List (String × α)), m.any (fun p => p.1 == k) = true →
      assocLookup k (m.map (fun p => if p.1 == k then (k, v) else p)) = some v
  | [], h => by simp at h
  | q :: m, h => by
    rw [List.map_cons]
    by_cases hq : q.1 = k
    · have hqb : (q.1 == k) = true := by simp [hq]
      have e1 : (if q.1 == k then (k, v) else q) = (k, v) := if_pos hqb
      rw [e1, assocLookup_cons]
      have hkk : ((k, v).1 == k) = true := by simp
      rw [hkk]
      rfl
    · have hqb : (q.1 == k) = false := by simp [hq]
      have e1 : (if q.1 == k then (k, v) else q) = q := if_neg (by simp [hqb])
      rw [e1, assocLookup_cons, hqb]
      simp only [Bool.false_eq_true, if_false]
      apply assocLookup_update_eq k v m
      simp only [List.any_cons, hqb, Bool.false_or] at h
      exact h

theorem assocLookup_jsMapInsert (m : List (String × Cookie)) (k : String) (v : Cookie)
    (n : String) :
    assocLookup n (jsMapInsert m k v) = if k == n then some v else assocLookup n m := by
  by_cases hany : m.any (fun p => p.1 == k) = true
  · have e1 : jsMapInsert m k v = m.map (fun p => if p.1 == k then (k, v) else p) := by
      unfold jsMapInsert
      rw [if_pos hany]
    rw [e1]
    by_cases hkn : k = n
    · subst hkn
      rw [assocLookup_update_eq k v m hany]
      have hkk : (k == k) = true := by simp
      rw [hkk]
      rfl
    · have hknb : (k == n) = false := by simp [hkn]
      rw [assocLookup_update_ne k v n hknb m, hknb]
      rfl
  · have hany2 : m.any (fun p => p.1 == k) = false := by
      revert hany
      cases m.any (fun p => p.1 == k) <;> simp
    have e1 : jsMapInsert m k v = m ++ [(k, v)] := by
      unfold jsMapInsert
      rw [if_neg hany]
    rw [e1, assocLookup_append_single]
    by_cases hkn : k = n
    · subst hkn
      have hn : assocLookup k m = none := any_eq_false_assocLookup k m hany2
      rw [hn]
    · have hknb : (k == n) = false := by simp [hkn]
      rw [hknb]
      cases hm : assocLookup n m with
      | some w => rfl
      | none => rfl

theorem find?_append_match {α : Type} (p : α → Bool) :
    ∀ (l₁ l₂ : List α),
      (l₁ ++ l₂).find? p =
        (match l₁.find? p with
         | some x => some x
         | none => l₂.find? p)
  | [], l₂ => rfl
  | a :: l₁, l₂ => by
    rw [List.cons_append]
    cases hp : p a with
    | true => simp [List.find?_cons, hp]
    | false => simp [List.find?_cons, hp, find?_append_match p l₁ l₂]

theorem jsMapFold_lookup (n : String) :
    ∀ (ps : List (String × Cookie)) (m : List (String × Cookie)),
      assocLookup n (ps.foldl (fun m p => jsMapInsert m p.1 p.2) m) =
        (match (ps.reverse.find? (fun p => p.1 == n)).map (fun p => p.2) with
         | some v => some v
         | none => assocLookup n m)
  | [], m => by
    show assocLookup n m = _
    cases hm : assocLookup n m <;> rfl
  | p :: ps, m => by
    rw [List.foldl_cons, jsMapFold_lookup n ps (jsMapInsert m p.1 p.2)]
    rw [List.reverse_cons, find?_append_match]
    cases hf : ps.reverse.find? (fun q => q.1 == n) with
    | some x => rfl
    | none =>
      rw [assocLookup_jsMapInsert]
      cases hpn : (p.1 == n) with
      | true =>
        have h1 : List.find? (fun q => q.1 == n) [p] = some p := by
          apply List.find?_cons_of_pos
          exact hpn
        rw [h1]
        rfl
      | false =>
        have h1 : List.find? (fun q => q.1 == n) [p] = none := by
          rw [List.find?_cons_of_neg _ (by simp [hpn])]
          rfl
        rw [h1]
        rfl

/-- C9: with deduplication enabled (the default), toCookieHeader keeps, for
each name, the value of the last occurrence in list order — the opposite of
the extraction call's first-seen-wins map (the `addCookies` conjunct) — and
joins the surviving entries as percent-encoded name=value pairs separated
by "; ". -/
theorem c9_header_lastWins :
    (∀ (cookies : List Cookie) (n : String),
      assocLookup n (jsMapEntries cookies) = cookies.reverse.find? (fun c => c.name == n)) ∧
    (∀ (cookies : List Cookie),
      toCookieHeader cookies none =
        String.intercalate "; " (((jsMapEntries cookies).map (fun p => p.2)).map encodePair)) ∧
    toCookieHeader [⟨"a", "1"⟩, ⟨"a", "2"⟩] none = "a=2" ∧
    addCookies [] [("a", "1"), ("a", "2")] none = [("a", "1")] := by
  refine ⟨?_, ?_, by decide, by decide⟩
  · intro cookies n
    unfold jsMapEntries
    rw [jsMapFold_lookup]
    have h1 : (cookies.map (fun c => (c.name, c))).reverse =
        cookies.reverse.map (fun c => (c.name, c)) := by
      simp
    rw [h1]
    have h2 : ∀ (l : List Cookie),
        (l.map (fun c => (c.name, c))).find? (fun p => p.1 == n) =
          (l.find? (fun c => c.name == n)).map (fun c => (c.name, c)) := by
      intro l
      induction l with
      | nil => rfl
      | cons c l ih =>
        rw [List.map_cons]
        cases hc : (c.name == n) with
        | true => simp [List.find?_cons, hc]
        | false => simp [List.find?_cons, hc, ih]
    rw [h2]
    cases hf : cookies.reverse.find? (fun c => c.name == n) with
    | some c => rfl
    | none => rfl
  · intro cookies
    simp [toCookieHeader]
